import Mathlib

/-!
# housescene.c : the math kernel, the argument scan and the frame renderer

A shallow embedding of `src/house/housescene.c`.

* In the math kernel `float` is read as an exact field `α` (the theorems take
  `α = ℝ`); the casts `(float)` are therefore the identity.
* In the animation clock `float` is binary32: a finite value is the rational it
  denotes, and every conversion and operation rounds to the nearest binary32
  number, ties to even (`toFloat`).
* A `mat4` output parameter is modelled by state passing: every routine takes
  the prior content of `result` and returns its content after the call.
* The C library functions `cos`, `sin`, `tan`, `atoi` and the file system
  behind `loadFile` are parameters of the embedding.
-/

namespace HouseScene

/-! ## Math kernel -/

section Kernel

variable {α : Type}

/-- The type `typedef float mat4[4][4]`, row index first. -/
abbrev mat4 (α : Type) := Fin 4 → Fin 4 → α

/-- The assignment `m[i][j] = v`. -/
def store (m : mat4 α) (i j : Fin 4) (v : α) : mat4 α :=
  fun a b => if a = i ∧ b = j then v else m a b

/-- The index range of `for (int i = 0; i < 4; i++)`. -/
def idx : List (Fin 4) := [0, 1, 2, 3]

/-- The macro `#define PI 3.1415926f`, its decimal value taken exactly. -/
def PI [Field α] : α := 31415926 / 10000000

/-- The macro `#define d2r(d) ((d)*(PI/180))`. -/
def d2r [Field α] (d : α) : α := d * (PI / 180)

/-- The function `matCopy`: every entry of `from` is stored into `to`
(`src` and `dst` here, both C names being reserved words). -/
def matCopy (src dst : mat4 α) : mat4 α :=
  idx.foldl (fun dst i => idx.foldl (fun dst j => store dst i j (src i j)) dst) dst

/-- The function `mat4Mult`, with `result` not aliasing `left` or `right`. -/
def mat4Mult [Field α] (left right result : mat4 α) : mat4 α :=
  idx.foldl (fun result i => idx.foldl (fun result j =>
    let sum := idx.foldl (fun sum k => sum + left i k * right k j) 0
    store result i j sum) result) result

/-- The function `identity`: the double loop of zero stores, then the four
diagonal stores. -/
def identity [Field α] (result : mat4 α) : mat4 α :=
  let result := idx.foldl (fun result i =>
    idx.foldl (fun result j => store result i j 0) result) result
  let result := store result 0 0 1
  let result := store result 1 1 1
  let result := store result 2 2 1
  store result 3 3 1

/-- The function `scale`. -/
def scale [Field α] (x y z : α) (result : mat4 α) : mat4 α :=
  let result := identity result
  let result := store result 0 0 x
  let result := store result 1 1 y
  store result 2 2 z

/-- The function `translate`. -/
def translate [Field α] (deltaX deltaY deltaZ : α) (result : mat4 α) : mat4 α :=
  let result := identity result
  let result := store result 0 3 deltaX
  let result := store result 1 3 deltaY
  store result 2 3 deltaZ

/-- The function `rotateX`; `cos` and `sin` are the C library functions. -/
def rotateX [Field α] (cos sin : α → α) (radians : α) (result : mat4 α) : mat4 α :=
  let result := identity result
  let c := cos radians
  let s := sin radians
  let result := store result 1 1 c
  let result := store result 2 2 c
  let result := store result 1 2 (-s)
  store result 2 1 s

/-- The function `rotateY`; `cos` and `sin` are the C library functions. -/
def rotateY [Field α] (cos sin : α → α) (radians : α) (result : mat4 α) : mat4 α :=
  let result := identity result
  let c := cos radians
  let s := sin radians
  let result := store result 0 0 c
  let result := store result 2 2 c
  let result := store result 0 2 (-s)
  store result 2 0 s

/-- The function `rotateZ`; `cos` and `sin` are the C library functions. -/
def rotateZ [Field α] (cos sin : α → α) (radians : α) (result : mat4 α) : mat4 α :=
  let result := identity result
  let c := cos radians
  let s := sin radians
  let result := store result 0 0 c
  let result := store result 1 1 c
  let result := store result 0 1 (-s)
  store result 1 0 s

/-- The function `perspective(near, far, result)`, the sibling of
`perspectivea` without a field of view. -/
def perspective [Field α] (near far : α) (result : mat4 α) : mat4 α :=
  let result := identity result
  let result := store result 0 0 near
  let result := store result 1 1 near
  let result := store result 2 2 ((-near - far) / (far - near))
  let result := store result 2 3 (-2 * near * far / (far - near))
  let result := store result 3 2 (-1)
  store result 3 3 0

/-- The function `perspectivea`; `tan` is the C library function. -/
def perspectivea [Field α] (tan : α → α) (fovy aspect near far : α)
    (result : mat4 α) : mat4 α :=
  let fov_rad := d2r fovy
  let inverse_range := 1 / tan (fov_rad / 2)
  let sx := inverse_range / aspect
  let sy := inverse_range
  let sz := -(far + near) / (far - near)
  let pz := -(2 * far * near) / (far - near)
  let result := identity result
  let result := store result 0 0 sx
  let result := store result 1 1 sy
  let result := store result 2 2 sz
  let result := store result 2 3 (-1)
  let result := store result 3 2 pz
  store result 3 3 0

/-- The product `M * v` of the vertex shader for a uniform uploaded by
`glUniformMatrix4fv(loc, 1, GL_TRUE, M)`: with the transpose flag the shader
sees the C array row-major, so component `i` is `sum_k M[i][k] * v[k]`. -/
def shaderMulVec [Field α] (M : mat4 α) (v : Fin 4 → α) : Fin 4 → α :=
  fun i => idx.foldl (fun sum k => sum + M i k * v k) 0

/-- Four components written out: a vector, or a matrix given by its rows. -/
def quad {β : Type} (a b c d : β) : Fin 4 → β :=
  fun k => if k = 0 then a else if k = 1 then b else if k = 2 then c else d

/-- The eye-space point `vec4(x, y, z, 1.0)` of the vertex shader. -/
def vec4 [Field α] (x y z : α) : Fin 4 → α := quad x y z 1

end Kernel

/-! ## The argument scan of `main` -/

/-- The variables that the argument loop of `main` sets. -/
structure Config where
  width : Int
  height : Int
  baseDir : ℚ
  sailVShader : Option String
  waterVShader : Option String
  deriving DecidableEq

/-- How the argument loop of `main` ends. -/
inductive ScanResult
  /-- A `return status;` inside the loop. -/
  | exit (status : Nat)
  /-- The loop ran to `i == argc`; `main` goes on to `init`. -/
  | done (c : Config)
  /-- A switch was the last argument: `argv[i+1]` is `argv[argc]`, a null
  pointer, which `atoi` or `fopen` then reads. -/
  | undefined
  deriving DecidableEq

/-- The test `argv[i][0] == '-'`. -/
def startsWithDash (a : String) : Prop := a.data.head? = some '-'

instance (a : String) : Decidable (startsWithDash a) := by
  unfold startsWithDash; infer_instance

/-- The body of `for (int i = 1; i < argc; i++)`, on the arguments
`argv[i], ..., argv[argc-1]` still to be read. The `i++` of the loop header
drops the head; the `i++` inside a switch branch drops the argument after it.
`loadFile` answers `none` for a null pointer, `atoi` is the C library function. -/
def scan (loadFile : String → Option String) (atoi : String → Int) :
    List String → Config → ScanResult
  | [], c => .done c
  | a :: rest, c =>
    if startsWithDash a then
      if a = "-w" then
        match rest with
        | [] => .undefined
        | b :: rest => scan loadFile atoi rest { c with width := atoi b }
      else if a = "-h" then
        match rest with
        | [] => .undefined
        | b :: rest => scan loadFile atoi rest { c with height := atoi b }
      else if a = "-dir" then
        match rest with
        | [] => .undefined
        | b :: rest => scan loadFile atoi rest { c with baseDir := d2r (atoi b : ℚ) }
      else if a = "-sail" then
        match rest with
        | [] => .undefined
        | b :: rest =>
          match loadFile b with
          | none => .exit 11
          | some src => scan loadFile atoi rest { c with sailVShader := some src }
      else if a = "-water" then
        match rest with
        | [] => .undefined
        | b :: rest =>
          match loadFile b with
          | none => .exit 11
          | some src => scan loadFile atoi rest { c with waterVShader := some src }
      else .exit 7
    else .exit 17

/-- The initial values of `main`: `width = 800`, `height = 800`,
`baseDir = d2r(0)`, both shader sources null. -/
def initialConfig : Config :=
  { width := 800, height := 800, baseDir := d2r 0,
    sailVShader := none, waterVShader := none }

/-- The argument loop of `main(argc, argv)`: it starts at `i = 1`. -/
def mainScan (loadFile : String → Option String) (atoi : String → Int)
    (argv : List String) : ScanResult :=
  scan loadFile atoi (argv.drop 1) initialConfig

/-- The switches that `main` compares against with `strcmp`. -/
def recognised (a : String) : Prop :=
  a = "-w" ∨ a = "-h" ∨ a = "-dir" ∨ a = "-sail" ∨ a = "-water"

instance (a : String) : Decidable (recognised a) := by
  unfold recognised; infer_instance

/-- Every recognised switch of the argument list is followed by an argument. -/
def switchesHaveArgs (args : List String) : Prop :=
  ∀ i : Fin args.length, recognised (args.get i) → i.val + 1 < args.length

instance (args : List String) : Decidable (switchesHaveArgs args) := by
  unfold switchesHaveArgs; infer_instance

/-- The arguments that a run of switch and argument pairs occupies. -/
def flattenPairs : List (String × String) → List String
  | [] => []
  | p :: ps => p.1 :: p.2 :: flattenPairs ps

/-- A switch with its argument that the scan consumes without stopping: the
switch is recognised, and for `-sail` and `-water` the file loads. -/
def pairOk (loadFile : String → Option String) (p : String × String) : Prop :=
  recognised p.1 ∧ ((p.1 = "-sail" ∨ p.1 = "-water") → (loadFile p.2).isSome = true)

/-- The argument of the last occurrence of switch `sw` among consumed pairs. -/
def lastArg (sw : String) (pairs : List (String × String)) : Option String :=
  ((pairs.filter (fun p => p.1 = sw)).getLast?).map (fun p => p.2)

/-- What the scan yields, `r`, when it has consumed `pairs` and `rest` is
left: it ran to the end with the last `-w` and `-h` values (else the values
`w0` and `h0` it started from), or it stopped at the head of `rest` with the
status of that failure. -/
def ScanOutcome (loadFile : String → Option String) (atoi : String → Int)
    (w0 h0 : Int) (pairs : List (String × String)) (rest : List String)
    (r : ScanResult) : Prop :=
  (rest = [] ∧ ∃ c, r = .done c ∧
      c.width = ((lastArg "-w" pairs).map atoi).getD w0 ∧
      c.height = ((lastArg "-h" pairs).map atoi).getD h0) ∨
  (∃ a tl, rest = a :: tl ∧ startsWithDash a ∧ ¬ recognised a ∧ r = .exit 7) ∨
  (∃ a tl, rest = a :: tl ∧ ¬ startsWithDash a ∧ r = .exit 17) ∨
  (∃ sw f tl, rest = sw :: f :: tl ∧ (sw = "-sail" ∨ sw = "-water") ∧
      loadFile f = none ∧ r = .exit 11)

/-! ## The frame renderer -/

/-- The bits of the mask of `glClear`. -/
inductive BufferBit
  | GL_COLOR_BUFFER_BIT
  | GL_DEPTH_BUFFER_BIT
  deriving DecidableEq

/-- The primitive modes of `glDrawArrays`. -/
inductive DrawMode
  | GL_TRIANGLES
  | GL_TRIANGLE_STRIP
  deriving DecidableEq

/-- The global matrices that `display` uploads. -/
inductive MatVar
  | projection
  | viewTransform
  | temp
  deriving DecidableEq

/-- The GL commands that `display` issues. -/
inductive GLCmd
  | glClear (mask : List BufferBit)
  | glUseProgram (program : Nat)
  | glBindVertexArray (array : Nat)
  | glUniformMatrix4fv (location : Int) (count : Nat) (transpose : Bool) (value : MatVar)
  | glActiveTexture (unit : Nat)
  | glBindTexture (texture : Nat)
  | glUniform1i (location : Int) (v0 : Int)
  | glDrawArrays (mode : DrawMode) (first count : Nat)
  deriving DecidableEq

/-- The global handles and uniform locations that `display` reads. -/
structure Globals where
  roofShaders : Nat
  roofVertices : Nat
  roofTexture : Nat
  roofProjectLoc : Int
  roofViewLoc : Int
  roofModelLoc : Int
  roofTextureLoc : Int
  houseShaders : Nat
  houseVertices : Nat
  houseTexture : Nat
  houseProjectLoc : Int
  houseViewLoc : Int
  houseModelLoc : Int
  houseTextureLoc : Int

/-- The function `display`: its GL calls in submission order. `GL_TRUE` is
`true`, `GL_TEXTURE0` is unit `0`. -/
def display (g : Globals) : List GLCmd :=
  [ .glClear [.GL_COLOR_BUFFER_BIT, .GL_DEPTH_BUFFER_BIT],
    .glUseProgram g.roofShaders,
    .glBindVertexArray g.roofVertices,
    .glUniformMatrix4fv g.roofProjectLoc 1 true .projection,
    .glUniformMatrix4fv g.roofViewLoc 1 true .viewTransform,
    .glUniformMatrix4fv g.roofModelLoc 1 true .temp,
    .glActiveTexture 0,
    .glBindTexture g.roofTexture,
    .glUniform1i g.roofTextureLoc 0,
    .glDrawArrays .GL_TRIANGLE_STRIP 0 12,
    .glUseProgram g.houseShaders,
    .glBindVertexArray g.houseVertices,
    .glUniformMatrix4fv g.houseProjectLoc 1 true .projection,
    .glUniformMatrix4fv g.houseViewLoc 1 true .viewTransform,
    .glUniformMatrix4fv g.houseModelLoc 1 true .temp,
    .glActiveTexture 0,
    .glBindTexture g.houseTexture,
    .glUniform1i g.houseTextureLoc 0,
    .glDrawArrays .GL_TRIANGLE_STRIP 0 10,
    .glDrawArrays .GL_TRIANGLE_STRIP 10 8 ]

/-- One matrix upload: location, transpose flag and the matrix uploaded. -/
structure Upload where
  location : Int
  transpose : Bool
  value : MatVar
  deriving DecidableEq

/-- The part of the GL context that decides what a draw call draws. -/
structure GLState where
  /-- The program made current by the last `glUseProgram`. -/
  program : Nat
  /-- The vertex array bound by the last `glBindVertexArray`. -/
  vertexArray : Nat
  /-- The matrix uploads made since the current program was made current. -/
  uploads : List Upload
  /-- Whether the colour buffer was cleared in this frame. -/
  colorCleared : Bool
  /-- Whether the depth buffer was cleared in this frame. -/
  depthCleared : Bool
  deriving DecidableEq

/-- A draw call together with the context it ran in. -/
structure DrawRecord where
  mode : DrawMode
  first : Nat
  count : Nat
  program : Nat
  vertexArray : Nat
  uploads : List Upload
  colorCleared : Bool
  depthCleared : Bool
  deriving DecidableEq

/-- The effect of one GL command on the context. -/
def GLState.step (s : GLState) : GLCmd → GLState
  | .glClear mask =>
    { s with colorCleared := s.colorCleared || decide (BufferBit.GL_COLOR_BUFFER_BIT ∈ mask),
             depthCleared := s.depthCleared || decide (BufferBit.GL_DEPTH_BUFFER_BIT ∈ mask) }
  | .glUseProgram p => { s with program := p, uploads := [] }
  | .glBindVertexArray v => { s with vertexArray := v }
  | .glUniformMatrix4fv loc _ tr m => { s with uploads := s.uploads ++ [⟨loc, tr, m⟩] }
  | _ => s

/-- The draw calls of a command sequence, in order, each with its context. -/
def drawLog : GLState → List GLCmd → List DrawRecord
  | _, [] => []
  | s, .glDrawArrays mode first count :: cmds =>
    { mode := mode, first := first, count := count, program := s.program,
      vertexArray := s.vertexArray, uploads := s.uploads,
      colorCleared := s.colorCleared, depthCleared := s.depthCleared }
      :: drawLog s cmds
  | s, cmd :: cmds => drawLog (s.step cmd) cmds

/-- The context at the start of a frame with nothing cleared yet. -/
def frameStart (program vertexArray : Nat) (uploads : List Upload) : GLState :=
  { program := program, vertexArray := vertexArray, uploads := uploads,
    colorCleared := false, depthCleared := false }

/-! ## Scene definition -/

/-- The table `roofPoints`: per vertex `x, y, z`, then `r, g, b`, then `u, v`,
one source line per row; `1.5f` is `3/2`. -/
def roofPoints : List ℚ :=
  [ 0, 3, -3 / 2,
    0, 0, 0,
    0, 0,
    -3 / 2, 2, -3 / 2,
    0, 0, 0,
    0, 0,
    3 / 2, 2, -3 / 2,
    0, 0, 0,
    0, 0,
    -3 / 2, 2, 3 / 2,
    0, 0, 0,
    0, 0,
    3 / 2, 2, 3 / 2,
    0, 0, 0,
    0, 0,
    0, 3, 3 / 2,
    0, 0, 0,
    0, 0,
    3 / 2, 2, -3 / 2,
    0, 0, 0,
    0, 0,
    3 / 2, 2, 3 / 2,
    0, 0, 0,
    0, 0,
    0, 3, -3 / 2,
    0, 0, 0,
    0, 0,
    0, 3, 3 / 2,
    0, 0, 0,
    0, 0,
    -3 / 2, 2, -3 / 2,
    0, 0, 0,
    0, 0,
    -3 / 2, 2, 3 / 2,
    0, 0, 0,
    0, 0 ]

/-- The table `housePoints`: per vertex `x, y, z`, then `r, g, b`, then `u, v`,
one source line per row. -/
def housePoints : List ℚ :=
  [ -1, 2, -1,
    1, 1, 1,
    0, 1,
    -1, 0, -1,
    1, 1, 1,
    0, 0,
    1, 2, -1,
    1, 1, 1,
    1, 1,
    1, 0, -1,
    1, 1, 1,
    1, 0,
    1, 2, 1,
    1, 1, 1,
    2, 1,
    1, 0, 1,
    1, 1, 1,
    2, 0,
    -1, 2, 1,
    1, 1, 1,
    3, 1,
    -1, 0, 1,
    1, 1, 1,
    3, 0,
    -1, 2, -1,
    1, 1, 1,
    4, 1,
    -1, 0, -1,
    1, 1, 1,
    4, 0,
    -1, 2, 1,
    1, 1, 1,
    1, 3,
    -1, 2, -1,
    1, 1, 1,
    0, 3,
    1, 2, 1,
    1, 1, 1,
    1, 2,
    1, 2, -1,
    1, 1, 1,
    0, 2,
    1, 0, 1,
    1, 1, 1,
    1, 1,
    1, 0, -1,
    1, 1, 1,
    0, 1,
    -1, 0, 1,
    1, 1, 1,
    1, 0,
    -1, 0, -1,
    1, 1, 1,
    0, 0 ]

/-- The number of vertices of a table: `glVertexAttribPointer` is given the
stride `8*sizeof(float)` and `glBufferData` the whole table. -/
def vertexCount (points : List ℚ) : Nat := points.length / 8

/-- The table behind a vertex array, as `main` sets it up: `roofPoints` is
uploaded while `roofVertices` is bound, `housePoints` while `houseVertices` is. -/
def bufferOf (g : Globals) (vertexArray : Nat) : List ℚ :=
  if vertexArray = g.roofVertices then roofPoints
  else if vertexArray = g.houseVertices then housePoints
  else []

/-- The vertex indices that a strip segment `(first, count)` reads. -/
def segmentVertices (r : DrawRecord) : List Nat := List.range' r.first r.count

/-- The vertex indices read, in draw order, by the draws made with a given
vertex array bound. -/
def verticesDrawn (vertexArray : Nat) (log : List DrawRecord) : List Nat :=
  ((log.filter (fun r => r.vertexArray = vertexArray)).map segmentVertices).flatten

/-- Handles and locations as a context may hand them out: distinct names for
the two programs, the two vertex arrays and the two textures. -/
def sampleGlobals : Globals :=
  { roofShaders := 2, roofVertices := 1, roofTexture := 0,
    roofProjectLoc := 2, roofViewLoc := 1, roofModelLoc := 0, roofTextureLoc := 3,
    houseShaders := 1, houseVertices := 2, houseTexture := 1,
    houseProjectLoc := 1, houseViewLoc := 2, houseModelLoc := 0, houseTextureLoc := 3 }

/-! ## The animation clock -/

/-- The conversion `(int) x` of a `float`: truncation toward zero, undefined
when the truncated value is not an `int` of 32 bits. -/
def toInt (x : ℚ) : Option Int :=
  let n := Int.tdiv x.num x.den
  if -2 ^ 31 ≤ n ∧ n < 2 ^ 31 then some n else none

/-- Rounding of a rational to the nearest integer, a tie going to the even
neighbour. -/
def roundEven (q : ℚ) : ℤ :=
  if q - ⌊q⌋ < 1 / 2 then ⌊q⌋
  else if 1 / 2 < q - ⌊q⌋ then ⌊q⌋ + 1
  else if ⌊q⌋ % 2 = 0 then ⌊q⌋ else ⌊q⌋ + 1

/-- The exponent of the last place of binary32 at the magnitude of `x`:
24 significant bits, and no exponent below `-149` (subnormal numbers). -/
def ulpExp (x : ℚ) : ℤ := max (Int.log 2 |x| - 23) (-149)

/-- The value of type `float` that a conversion or an arithmetic operation
yields when its exact result is `x`: the nearest multiple of the last place,
ties to even; `none` when that is no finite binary32 number (an infinity). -/
def toFloat (x : ℚ) : Option ℚ :=
  let y := (roundEven (x / 2 ^ ulpExp x) : ℚ) * 2 ^ ulpExp x
  if |y| < 2 ^ 128 then some y else none

/-- The statements `float time = glfwGetTime();` and
`currentAngle = (int)(time*1000)%6283/1000.0f;` of the main loop, `clock` being
what `glfwGetTime()` returned. The `double` is converted to `float`; the product
with `1000` is a `float` product; `(int)` truncates it; `%` on `int` is the
remainder of the truncating division; the remainder, below `2^24` in size and so
exact as a `float`, is divided by `1000.0f` in `float`. -/
def currentAngle (clock : ℚ) : Option ℚ := do
  let time ← toFloat clock
  let product ← toFloat (time * 1000)
  let n ← toInt product
  toFloat (((Int.tmod n 6283 : ℤ) : ℚ) / 1000)

/-! ## The view matrix of `main` -/

/-- The statements of `main` that build `viewTransform`: `rotateX(d2r(90), worldRotate)`,
`rotateY(d2r(-45), worldRotate)`, `translate(0, -2, -7, worldTranslate)` and
`mat4Mult(worldTranslate, worldRotate, viewTransform)`. The locals `worldRotate`
and `worldTranslate` are declared without an initialiser, so what they hold
before, like what `viewTransform` holds, is an argument. -/
def viewTransformAtStartup {α : Type} [Field α] (cos sin : α → α)
    (worldRotate worldTranslate viewTransform : mat4 α) : mat4 α :=
  let worldRotate := rotateX cos sin (d2r 90) worldRotate
  let worldRotate := rotateY cos sin (d2r (-45)) worldRotate
  let worldTranslate := translate 0 (-2) (-7) worldTranslate
  mat4Mult worldTranslate worldRotate viewTransform

/-! ## Entry-wise descriptions of the kernel routines -/

section KernelLemmas

variable {α : Type} [Field α]

theorem mat4Mult_apply (left right result : mat4 α) (i j : Fin 4) :
    mat4Mult left right result i j =
      left i 0 * right 0 j + left i 1 * right 1 j + left i 2 * right 2 j
        + left i 3 * right 3 j := by
  fin_cases i <;> fin_cases j <;> simp [mat4Mult, idx, store]

theorem identity_apply (result : mat4 α) (i j : Fin 4) :
    identity result i j = if i = j then 1 else 0 := by
  fin_cases i <;> fin_cases j <;> simp [identity, idx, store]

theorem scale_apply (x y z : α) (result : mat4 α) :
    scale x y z result =
      quad (quad x 0 0 0) (quad 0 y 0 0) (quad 0 0 z 0) (quad 0 0 0 1) := by
  funext i j
  fin_cases i <;> fin_cases j <;> simp [scale, identity, idx, store, quad]

theorem translate_apply (dx dy dz : α) (result : mat4 α) :
    translate dx dy dz result =
      quad (quad 1 0 0 dx) (quad 0 1 0 dy) (quad 0 0 1 dz) (quad 0 0 0 1) := by
  funext i j
  fin_cases i <;> fin_cases j <;> simp [translate, identity, idx, store, quad]

theorem rotateX_apply (cos sin : α → α) (t : α) (result : mat4 α) :
    rotateX cos sin t result =
      quad (quad 1 0 0 0) (quad 0 (cos t) (-sin t) 0) (quad 0 (sin t) (cos t) 0) (quad 0 0 0 1) := by
  funext i j
  fin_cases i <;> fin_cases j <;> simp [rotateX, identity, idx, store, quad]

theorem rotateY_apply (cos sin : α → α) (t : α) (result : mat4 α) :
    rotateY cos sin t result =
      quad (quad (cos t) 0 (-sin t) 0) (quad 0 1 0 0) (quad (sin t) 0 (cos t) 0) (quad 0 0 0 1) := by
  funext i j
  fin_cases i <;> fin_cases j <;> simp [rotateY, identity, idx, store, quad]

theorem rotateZ_apply (cos sin : α → α) (t : α) (result : mat4 α) :
    rotateZ cos sin t result =
      quad (quad (cos t) (-sin t) 0 0) (quad (sin t) (cos t) 0 0) (quad 0 0 1 0) (quad 0 0 0 1) := by
  funext i j
  fin_cases i <;> fin_cases j <;> simp [rotateZ, identity, idx, store, quad]

theorem perspectivea_apply (tan : α → α) (fovy aspect near far : α) (result : mat4 α) :
    perspectivea tan fovy aspect near far result =
      quad (quad (1 / tan (d2r fovy / 2) / aspect) 0 0 0)
        (quad 0 (1 / tan (d2r fovy / 2)) 0 0)
        (quad 0 0 (-(far + near) / (far - near)) (-1))
        (quad 0 0 (-(2 * far * near) / (far - near)) 0) := by
  funext i j
  fin_cases i <;> fin_cases j <;> simp [perspectivea, identity, idx, store, quad]

theorem perspective_apply (near far : α) (result : mat4 α) :
    perspective near far result =
      quad (quad near 0 0 0) (quad 0 near 0 0)
        (quad 0 0 ((-near - far) / (far - near)) (-2 * near * far / (far - near)))
        (quad 0 0 (-1) 0) := by
  funext i j
  fin_cases i <;> fin_cases j <;> simp [perspective, identity, idx, store, quad]

theorem shaderMulVec_apply (M : mat4 α) (v : Fin 4 → α) (i : Fin 4) :
    shaderMulVec M v i = M i 0 * v 0 + M i 1 * v 1 + M i 2 * v 2 + M i 3 * v 3 := by
  simp [shaderMulVec, idx]

/-- The clip-space `w` that `perspectivea` yields: `pz * z`, not `-z`. -/
theorem perspectivea_clip_w (tan : α → α) (fovy aspect near far x y z : α)
    (result : mat4 α) :
    shaderMulVec (perspectivea tan fovy aspect near far result) (vec4 x y z) 3 =
      -(2 * far * near) / (far - near) * z := by
  rw [shaderMulVec_apply, perspectivea_apply]
  simp [vec4, quad]

/-- The clip-space `w` that the sibling `perspective` yields: `-z`. -/
theorem perspective_clip_w (near far x y z : α) (result : mat4 α) :
    shaderMulVec (perspective near far result) (vec4 x y z) 3 = -z := by
  rw [shaderMulVec_apply, perspective_apply]
  simp [vec4, quad]

end KernelLemmas

/-- Claim C1: for every 4x4 real matrix `A`, whatever the output arrays held
before, `mat4Mult(I, A) = A` and `mat4Mult(A, I) = A` where `I` is the matrix
written by `identity`. -/
theorem identity_neutral_for_mat4Mult (A I0 R0 : mat4 ℝ) :
    mat4Mult (identity I0) A R0 = A ∧ mat4Mult A (identity I0) R0 = A := by
  constructor
  · funext i j
    rw [mat4Mult_apply]
    simp only [identity_apply]
    fin_cases i <;> simp
  · funext i j
    rw [mat4Mult_apply]
    simp only [identity_apply]
    fin_cases j <;> simp

/-- Claim C2, the code evaluated where it departs from the claim: with the
arguments of `main` (`perspectivea(24, 1, 1, 100)`), the point `(0, 0, -near, 1)`
on the near plane gets clip-space `w = 200/99`, not `near = 1`, and the point
`(0, 0, -far, 1)` on the far plane gets `w = 20000/99`, not `far = 100`. -/
theorem perspectivea_clip_w_at_main_planes (R0 : mat4 ℝ) :
    shaderMulVec (perspectivea Real.tan 24 1 1 100 R0) (vec4 0 0 (-1)) 3 = 200 / 99 ∧
    shaderMulVec (perspectivea Real.tan 24 1 1 100 R0) (vec4 0 0 (-1)) 3 ≠ 1 ∧
    shaderMulVec (perspectivea Real.tan 24 1 1 100 R0) (vec4 0 0 (-100)) 3 = 20000 / 99 ∧
    shaderMulVec (perspectivea Real.tan 24 1 1 100 R0) (vec4 0 0 (-100)) 3 ≠ 100 := by
  simp only [perspectivea_clip_w]
  norm_num

/-- Claim C3: for `aspect != 0` and `far != near`, the matrix written by
`perspectivea(fovY, aspect, near, far, M)` has `M[0][0] = cot(d2r(fovY)/2)/aspect`,
`M[1][1] = cot(d2r(fovY)/2)`, `M[2][2] = -(far+near)/(far-near)`, `M[2][3] = -1`
and `M[3][3] = 0`. -/
theorem perspectivea_entries (fovy aspect near far : ℝ) (R0 : mat4 ℝ)
    (_haspect : aspect ≠ 0) (_hplanes : far ≠ near) :
    perspectivea Real.tan fovy aspect near far R0 0 0 = Real.cot (d2r fovy / 2) / aspect ∧
    perspectivea Real.tan fovy aspect near far R0 1 1 = Real.cot (d2r fovy / 2) ∧
    perspectivea Real.tan fovy aspect near far R0 2 2 = -(far + near) / (far - near) ∧
    perspectivea Real.tan fovy aspect near far R0 2 3 = -1 ∧
    perspectivea Real.tan fovy aspect near far R0 3 3 = 0 := by
  have hcot : 1 / Real.tan (d2r fovy / 2) = Real.cot (d2r fovy / 2) := by
    rw [Real.tan_eq_sin_div_cos, Real.cot_eq_cos_div_sin, one_div, inv_div]
  rw [perspectivea_apply]
  simp [hcot, quad]

/-- The entries at the arguments of `main` with a square window,
`perspectivea(24, 1, 1, 100)`, the output array holding sevens before. -/
theorem perspectivea_entries_witness :
    ((1 : ℝ) ≠ 0 ∧ (100 : ℝ) ≠ 1) ∧
    perspectivea Real.tan 24 1 1 100 (fun _ _ => (7 : ℝ)) 0 0
        = Real.cot (d2r 24 / 2) / 1 ∧
    perspectivea Real.tan 24 1 1 100 (fun _ _ => (7 : ℝ)) 1 1 = Real.cot (d2r 24 / 2) ∧
    perspectivea Real.tan 24 1 1 100 (fun _ _ => (7 : ℝ)) 2 2 = -(100 + 1) / (100 - 1) ∧
    perspectivea Real.tan 24 1 1 100 (fun _ _ => (7 : ℝ)) 2 3 = -1 ∧
    perspectivea Real.tan 24 1 1 100 (fun _ _ => (7 : ℝ)) 3 3 = 0 :=
  ⟨⟨by norm_num, by norm_num⟩,
    perspectivea_entries 24 1 1 100 (fun _ _ => 7) (by norm_num) (by norm_num)⟩

/-- Claim C4, the code evaluated where it departs from the claim, at a quarter
turn. `rotateX` sends `(0, 1, 0)` to `(0, 0, 1)` and `rotateZ` sends `(1, 0, 0)`
to `(0, 1, 0)`, both right-handed as the claim says. `rotateY` writes
`M[0][2] = -1` and `M[2][0] = 1` and sends `(0, 0, 1)` to `(-1, 0, 0)`, whereas
the claim has `M[0][2] = sin θ = 1`, `M[2][0] = -1` and the image `(1, 0, 0)`. -/
theorem rotateY_quarter_turn (R0 : mat4 ℝ) :
    shaderMulVec (rotateX Real.cos Real.sin (Real.pi / 2) R0) (quad 0 1 0 0)
      = quad 0 0 1 0 ∧
    shaderMulVec (rotateZ Real.cos Real.sin (Real.pi / 2) R0) (quad 1 0 0 0)
      = quad 0 1 0 0 ∧
    shaderMulVec (rotateY Real.cos Real.sin (Real.pi / 2) R0) (quad 0 0 1 0)
      = quad (-1) 0 0 0 ∧
    rotateY Real.cos Real.sin (Real.pi / 2) R0 0 2 = -1 ∧
    rotateY Real.cos Real.sin (Real.pi / 2) R0 2 0 = 1 ∧
    rotateY Real.cos Real.sin (Real.pi / 2) R0 0 2 ≠ Real.sin (Real.pi / 2) := by
  refine ⟨?_, ?_, ?_, ?_, ?_, ?_⟩
  · funext i
    rw [shaderMulVec_apply, rotateX_apply]
    fin_cases i <;> simp [quad]
  · funext i
    rw [shaderMulVec_apply, rotateZ_apply]
    fin_cases i <;> simp [quad]
  · funext i
    rw [shaderMulVec_apply, rotateY_apply]
    fin_cases i <;> simp [quad]
  · simp [rotateY_apply, quad]
  · simp [rotateY_apply, quad]
  · simp [rotateY_apply, quad]
    norm_num

/-- Claim C5: for every real angle, whatever the output arrays held before,
`mat4Mult(rotateX(θ), rotateX(-θ))` is the matrix written by `identity`, and
likewise for `rotateY` and `rotateZ`. -/
theorem rotate_neg_is_inverse (t : ℝ) (A0 B0 R0 I0 : mat4 ℝ) :
    mat4Mult (rotateX Real.cos Real.sin t A0) (rotateX Real.cos Real.sin (-t) B0) R0
      = identity I0 ∧
    mat4Mult (rotateY Real.cos Real.sin t A0) (rotateY Real.cos Real.sin (-t) B0) R0
      = identity I0 ∧
    mat4Mult (rotateZ Real.cos Real.sin t A0) (rotateZ Real.cos Real.sin (-t) B0) R0
      = identity I0 := by
  have h1 : Real.cos t * Real.cos t + Real.sin t * Real.sin t = 1 := by
    have := Real.cos_sq_add_sin_sq t
    nlinarith
  have h2 : Real.sin t * Real.sin t + Real.cos t * Real.cos t = 1 := by linarith
  have h3 : Real.cos t * Real.sin t + -(Real.sin t * Real.cos t) = 0 := by ring
  have h4 : Real.sin t * Real.cos t + -(Real.cos t * Real.sin t) = 0 := by ring
  have h5 : -(Real.sin t * Real.cos t) + Real.cos t * Real.sin t = 0 := by ring
  have h6 : -(Real.cos t * Real.sin t) + Real.sin t * Real.cos t = 0 := by ring
  refine ⟨?_, ?_, ?_⟩
  · funext i j
    rw [mat4Mult_apply, identity_apply, rotateX_apply, rotateX_apply]
    fin_cases i <;> fin_cases j <;> simp [quad, h1, h2, h3, h4, h5, h6]
  · funext i j
    rw [mat4Mult_apply, identity_apply, rotateY_apply, rotateY_apply]
    fin_cases i <;> fin_cases j <;> simp [quad, h1, h2, h3, h4, h5, h6]
  · funext i j
    rw [mat4Mult_apply, identity_apply, rotateZ_apply, rotateZ_apply]
    fin_cases i <;> fin_cases j <;> simp [quad, h1, h2, h3, h4, h5, h6]

/-- Claim C6: for all real offsets, whatever the output arrays held before,
`mat4Mult(translate(ax, ay, az), translate(bx, by, bz))` equals
`translate(ax+bx, ay+by, az+bz)` in every component. -/
theorem translate_composition (ax ay az bx bY bz : ℝ) (A0 B0 R0 T0 : mat4 ℝ) :
    mat4Mult (translate ax ay az A0) (translate bx bY bz B0) R0
      = translate (ax + bx) (ay + bY) (az + bz) T0 := by
  funext i j
  rw [mat4Mult_apply, translate_apply, translate_apply, translate_apply]
  fin_cases i <;> fin_cases j <;> simp [quad, add_comm]

/-! ## The argument scan -/

theorem switchesHaveArgs_cons (a : String) (rest : List String)
    (h : switchesHaveArgs (a :: rest)) :
    (recognised a → rest ≠ []) ∧ switchesHaveArgs rest := by
  constructor
  · intro ha hrest
    have h0 := h ⟨0, by simp⟩ ha
    simp [hrest] at h0
  · intro i hi
    have h1 := h ⟨i.val + 1, by simp⟩ (by simpa using hi)
    simpa using h1

theorem lastArg_cons_same (sw b : String) (ps : List (String × String)) :
    lastArg sw ((sw, b) :: ps) = some ((lastArg sw ps).getD b) := by
  unfold lastArg
  simp only [List.filter_cons, decide_True, if_true, List.getLast?_cons]
  cases (List.filter (fun p => decide (p.1 = sw)) ps).getLast? <;> simp

theorem lastArg_cons_other (sw other b : String) (ps : List (String × String))
    (h : other ≠ sw) : lastArg sw ((other, b) :: ps) = lastArg sw ps := by
  unfold lastArg
  simp [List.filter_cons, h]

/-- Consuming one more good pair in front keeps the outcome. -/
theorem scanOutcome_cons (loadFile : String → Option String) (atoi : String → Int)
    (sw b : String) (tl : List String) (c c1 : Config) (r : ScanResult)
    (hok : pairOk loadFile (sw, b))
    (hw : c1.width = if sw = "-w" then atoi b else c.width)
    (hh : c1.height = if sw = "-h" then atoi b else c.height)
    (ih : ∃ pairs rest, tl = flattenPairs pairs ++ rest ∧
      (∀ p ∈ pairs, pairOk loadFile p) ∧
      ScanOutcome loadFile atoi c1.width c1.height pairs rest r) :
    ∃ pairs rest, sw :: b :: tl = flattenPairs pairs ++ rest ∧
      (∀ p ∈ pairs, pairOk loadFile p) ∧
      ScanOutcome loadFile atoi c.width c.height pairs rest r := by
  obtain ⟨pairs, rest, rfl, hp, ho⟩ := ih
  refine ⟨(sw, b) :: pairs, rest, by simp [flattenPairs], ?_, ?_⟩
  · intro p hmem
    rcases List.mem_cons.mp hmem with rfl | hmem
    · exact hok
    · exact hp p hmem
  · rcases ho with ⟨hrest, c2, hr, hw2, hh2⟩ | h7 | h17 | h11
    · refine Or.inl ⟨hrest, c2, hr, ?_, ?_⟩
      · by_cases hsw : sw = "-w"
        · subst hsw
          rw [lastArg_cons_same, hw2, hw]
          cases lastArg "-w" pairs <;> simp
        · rw [lastArg_cons_other _ _ _ _ hsw, hw2, hw]
          simp [hsw]
      · by_cases hsw : sw = "-h"
        · subst hsw
          rw [lastArg_cons_same, hh2, hh]
          cases lastArg "-h" pairs <;> simp
        · rw [lastArg_cons_other _ _ _ _ hsw, hh2, hh]
          simp [hsw]
    · exact Or.inr (Or.inl h7)
    · exact Or.inr (Or.inr (Or.inl h17))
    · exact Or.inr (Or.inr (Or.inr h11))

/-- The scan from any configuration: a run of good pairs is consumed and the
outcome is decided by what follows that prefix. -/
theorem scan_outcome (loadFile : String → Option String) (atoi : String → Int) :
    ∀ (n : Nat) (args : List String) (c : Config), args.length ≤ n →
      switchesHaveArgs args →
      ∃ pairs rest, args = flattenPairs pairs ++ rest ∧
        (∀ p ∈ pairs, pairOk loadFile p) ∧
        ScanOutcome loadFile atoi c.width c.height pairs rest
          (scan loadFile atoi args c) := by
  intro n
  induction n with
  | zero =>
    intro args c hlen _
    have hnil : args = [] := List.length_eq_zero.mp (Nat.le_zero.mp hlen)
    subst hnil
    exact ⟨[], [], rfl, by simp, Or.inl ⟨rfl, c, by simp [scan], by simp [lastArg],
      by simp [lastArg]⟩⟩
  | succ n ih =>
    intro args c hlen hsw
    cases args with
    | nil =>
      exact ⟨[], [], rfl, by simp, Or.inl ⟨rfl, c, by simp [scan], by simp [lastArg],
        by simp [lastArg]⟩⟩
    | cons a rest =>
      obtain ⟨hne, hrest⟩ := switchesHaveArgs_cons a rest hsw
      by_cases hdash : startsWithDash a
      · by_cases hrec : recognised a
        · cases rest with
          | nil => exact absurd rfl (hne hrec)
          | cons b tl =>
            obtain ⟨_, htl⟩ := switchesHaveArgs_cons b tl hrest
            have hlen2 : tl.length ≤ n := by
              simp only [List.length_cons] at hlen
              omega
            rcases hrec with rfl | rfl | rfl | rfl | rfl
            · have hs : scan loadFile atoi ("-w" :: b :: tl) c
                  = scan loadFile atoi tl { c with width := atoi b } := by
                simp [scan, hdash]
              rw [hs]
              exact scanOutcome_cons loadFile atoi "-w" b tl c _ _
                ⟨Or.inl rfl, fun hf => absurd (show "-w" = "-sail" ∨ "-w" = "-water" from hf) (by decide)⟩ (by simp) (by simp) (ih tl _ hlen2 htl)
            · have hs : scan loadFile atoi ("-h" :: b :: tl) c
                  = scan loadFile atoi tl { c with height := atoi b } := by
                simp [scan, hdash]
              rw [hs]
              exact scanOutcome_cons loadFile atoi "-h" b tl c _ _
                ⟨Or.inr (Or.inl rfl), fun hf => absurd (show "-h" = "-sail" ∨ "-h" = "-water" from hf) (by decide)⟩ (by simp) (by simp) (ih tl _ hlen2 htl)
            · have hs : scan loadFile atoi ("-dir" :: b :: tl) c
                  = scan loadFile atoi tl { c with baseDir := d2r (atoi b : ℚ) } := by
                simp [scan, hdash]
              rw [hs]
              exact scanOutcome_cons loadFile atoi "-dir" b tl c _ _
                ⟨Or.inr (Or.inr (Or.inl rfl)), fun hf => absurd (show "-dir" = "-sail" ∨ "-dir" = "-water" from hf) (by decide)⟩ (by simp) (by simp)
                (ih tl _ hlen2 htl)
            · cases hload : loadFile b with
              | none =>
                refine ⟨[], "-sail" :: b :: tl, rfl, by simp, ?_⟩
                refine Or.inr (Or.inr (Or.inr ⟨"-sail", b, tl, rfl, Or.inl rfl, hload, ?_⟩))
                simp [scan, hdash, hload]
              | some src =>
                have hs : scan loadFile atoi ("-sail" :: b :: tl) c
                    = scan loadFile atoi tl { c with sailVShader := some src } := by
                  simp [scan, hdash, hload]
                rw [hs]
                exact scanOutcome_cons loadFile atoi "-sail" b tl c _ _
                  ⟨Or.inr (Or.inr (Or.inr (Or.inl rfl))), by simp [hload]⟩
                  (by simp) (by simp) (ih tl _ hlen2 htl)
            · cases hload : loadFile b with
              | none =>
                refine ⟨[], "-water" :: b :: tl, rfl, by simp, ?_⟩
                refine Or.inr (Or.inr (Or.inr ⟨"-water", b, tl, rfl, Or.inr rfl, hload, ?_⟩))
                simp [scan, hdash, hload]
              | some src =>
                have hs : scan loadFile atoi ("-water" :: b :: tl) c
                    = scan loadFile atoi tl { c with waterVShader := some src } := by
                  simp [scan, hdash, hload]
                rw [hs]
                exact scanOutcome_cons loadFile atoi "-water" b tl c _ _
                  ⟨Or.inr (Or.inr (Or.inr (Or.inr rfl))), by simp [hload]⟩
                  (by simp) (by simp) (ih tl _ hlen2 htl)
        · refine ⟨[], a :: rest, rfl, by simp, Or.inr (Or.inl ⟨a, rest, rfl, hdash, hrec, ?_⟩)⟩
          simp only [recognised, not_or] at hrec
          obtain ⟨h1, h2, h3, h4, h5⟩ := hrec
          unfold scan
          simp [hdash, h1, h2, h3, h4, h5]
      · exact ⟨[], a :: rest, rfl, by simp,
          Or.inr (Or.inr (Or.inl ⟨a, rest, rfl, hdash, by unfold scan; simp [hdash]⟩))⟩

/-- Claim C7: on an argument list in which every recognised switch is followed
by an argument, the scan of `main` consumes a run of good switch and argument
pairs and stops at what follows it: status 7 when that argument starts with
`-` and is no recognised switch, status 17 when it does not start with `-`,
status 11 when it is `-sail` or `-water` with a file that does not load; when
nothing follows, the scan completes with `width` and `height` equal to 800
unless the last `-w` or `-h` set them. -/
theorem mainScan_stops_at_first_failure (loadFile : String → Option String)
    (atoi : String → Int) (prog : String) (args : List String)
    (h : switchesHaveArgs args) :
    ∃ pairs rest, args = flattenPairs pairs ++ rest ∧
      (∀ p ∈ pairs, pairOk loadFile p) ∧
      ((rest = [] ∧ ∃ c, mainScan loadFile atoi (prog :: args) = .done c ∧
          c.width = ((lastArg "-w" pairs).map atoi).getD 800 ∧
          c.height = ((lastArg "-h" pairs).map atoi).getD 800) ∨
       (∃ a tl, rest = a :: tl ∧ startsWithDash a ∧ ¬ recognised a ∧
          mainScan loadFile atoi (prog :: args) = .exit 7) ∨
       (∃ a tl, rest = a :: tl ∧ ¬ startsWithDash a ∧
          mainScan loadFile atoi (prog :: args) = .exit 17) ∨
       (∃ sw f tl, rest = sw :: f :: tl ∧ (sw = "-sail" ∨ sw = "-water") ∧
          loadFile f = none ∧ mainScan loadFile atoi (prog :: args) = .exit 11)) := by
  obtain ⟨pairs, rest, hargs, hp, ho⟩ :=
    scan_outcome loadFile atoi args.length args initialConfig (Nat.le_refl _) h
  exact ⟨pairs, rest, hargs, hp, ho⟩

/-- The scan of the arguments `-w 400 -foo`, with no file loadable. -/
theorem mainScan_stops_at_first_failure_witness :
    switchesHaveArgs ["-w", "400", "-foo"] ∧
    ∃ pairs rest, ["-w", "400", "-foo"] = flattenPairs pairs ++ rest ∧
      (∀ p ∈ pairs, pairOk (fun _ => none) p) ∧
      ((rest = [] ∧ ∃ c, mainScan (fun _ => none) (fun a => if a = "400" then 400 else 0)
            ("housescene" :: ["-w", "400", "-foo"]) = .done c ∧
          c.width = ((lastArg "-w" pairs).map
            (fun a => if a = "400" then 400 else 0)).getD 800 ∧
          c.height = ((lastArg "-h" pairs).map
            (fun a => if a = "400" then 400 else 0)).getD 800) ∨
       (∃ a tl, rest = a :: tl ∧ startsWithDash a ∧ ¬ recognised a ∧
          mainScan (fun _ => none) (fun a => if a = "400" then 400 else 0)
            ("housescene" :: ["-w", "400", "-foo"]) = .exit 7) ∨
       (∃ a tl, rest = a :: tl ∧ ¬ startsWithDash a ∧
          mainScan (fun _ => none) (fun a => if a = "400" then 400 else 0)
            ("housescene" :: ["-w", "400", "-foo"]) = .exit 17) ∨
       (∃ sw f tl, rest = sw :: f :: tl ∧ (sw = "-sail" ∨ sw = "-water") ∧
          (fun _ => none : String → Option String) f = none ∧
          mainScan (fun _ => none) (fun a => if a = "400" then 400 else 0)
            ("housescene" :: ["-w", "400", "-foo"]) = .exit 11)) :=
  ⟨by decide, mainScan_stops_at_first_failure _ _ _ _ (by decide)⟩

/-! ## The frame renderer and the meshes -/

/-- The draw calls of `display`, each with the context it runs in. -/
theorem display_log_eq (g : Globals) (p0 v0 : Nat) (u0 : List Upload) :
    drawLog (frameStart p0 v0 u0) (display g) =
      [ ⟨.GL_TRIANGLE_STRIP, 0, 12, g.roofShaders, g.roofVertices,
          [⟨g.roofProjectLoc, true, .projection⟩, ⟨g.roofViewLoc, true, .viewTransform⟩,
            ⟨g.roofModelLoc, true, .temp⟩], true, true⟩,
        ⟨.GL_TRIANGLE_STRIP, 0, 10, g.houseShaders, g.houseVertices,
          [⟨g.houseProjectLoc, true, .projection⟩, ⟨g.houseViewLoc, true, .viewTransform⟩,
            ⟨g.houseModelLoc, true, .temp⟩], true, true⟩,
        ⟨.GL_TRIANGLE_STRIP, 10, 8, g.houseShaders, g.houseVertices,
          [⟨g.houseProjectLoc, true, .projection⟩, ⟨g.houseViewLoc, true, .viewTransform⟩,
            ⟨g.houseModelLoc, true, .temp⟩], true, true⟩ ] := by
  simp [display, drawLog, GLState.step, frameStart]

/-- Claim C8: whatever the context held before the frame, the commands of
`display` start with the clear of the colour and depth buffers, and the draw
calls are exactly three triangle strips in this order: `(0, 12)` with the roof
program and roof vertex array current, then `(0, 10)` and `(10, 8)` with the
house program and house vertex array current; each runs after the clear, and
after the project, view and model matrices were uploaded to its program with
the transpose flag set. -/
theorem display_command_sequence (g : Globals) (p0 v0 : Nat) (u0 : List Upload) :
    (display g).head? = some (.glClear [.GL_COLOR_BUFFER_BIT, .GL_DEPTH_BUFFER_BIT]) ∧
    drawLog (frameStart p0 v0 u0) (display g) =
      [ { mode := .GL_TRIANGLE_STRIP, first := 0, count := 12,
          program := g.roofShaders, vertexArray := g.roofVertices,
          uploads := [⟨g.roofProjectLoc, true, .projection⟩,
            ⟨g.roofViewLoc, true, .viewTransform⟩, ⟨g.roofModelLoc, true, .temp⟩],
          colorCleared := true, depthCleared := true },
        { mode := .GL_TRIANGLE_STRIP, first := 0, count := 10,
          program := g.houseShaders, vertexArray := g.houseVertices,
          uploads := [⟨g.houseProjectLoc, true, .projection⟩,
            ⟨g.houseViewLoc, true, .viewTransform⟩, ⟨g.houseModelLoc, true, .temp⟩],
          colorCleared := true, depthCleared := true },
        { mode := .GL_TRIANGLE_STRIP, first := 10, count := 8,
          program := g.houseShaders, vertexArray := g.houseVertices,
          uploads := [⟨g.houseProjectLoc, true, .projection⟩,
            ⟨g.houseViewLoc, true, .viewTransform⟩, ⟨g.houseModelLoc, true, .temp⟩],
          colorCleared := true, depthCleared := true } ] := by
  constructor
  · rfl
  · simp [display, drawLog, GLState.step, frameStart]

theorem roofPoints_length : roofPoints.length = 96 := rfl

theorem housePoints_length : housePoints.length = 144 := rfl

/-- Claim C9: `housePoints` has 144 floats, 18 vertices, and `roofPoints` has 96
floats, 12 vertices; with distinct vertex-array names, every strip segment that
`display` draws ends within the table behind the vertex array bound at the
draw; the house segments are `(0, 10)` and `(10, 8)` and read the vertices
`0..17` once each, and the roof segment is `(0, 12)` and reads `0..11`. -/
theorem strip_segments_within_buffers (g : Globals) (p0 v0 : Nat) (u0 : List Upload)
    (hne : g.roofVertices ≠ g.houseVertices) :
    (housePoints.length = 144 ∧ vertexCount housePoints = 18) ∧
    (roofPoints.length = 96 ∧ vertexCount roofPoints = 12) ∧
    (∀ r ∈ drawLog (frameStart p0 v0 u0) (display g),
      r.first + r.count ≤ vertexCount (bufferOf g r.vertexArray)) ∧
    ((drawLog (frameStart p0 v0 u0) (display g)).filter
        (fun r => r.vertexArray = g.houseVertices)).map (fun r => (r.first, r.count))
      = [(0, 10), (10, 8)] ∧
    verticesDrawn g.houseVertices (drawLog (frameStart p0 v0 u0) (display g))
      = List.range (vertexCount housePoints) ∧
    ((drawLog (frameStart p0 v0 u0) (display g)).filter
        (fun r => r.vertexArray = g.roofVertices)).map (fun r => (r.first, r.count))
      = [(0, 12)] ∧
    verticesDrawn g.roofVertices (drawLog (frameStart p0 v0 u0) (display g))
      = List.range (vertexCount roofPoints) := by
  have hne2 : g.houseVertices ≠ g.roofVertices := fun h => hne h.symm
  have hlog := (display_log_eq g p0 v0 u0)
  have hh : vertexCount housePoints = 18 := by
    simp [vertexCount, housePoints_length]
  have hr : vertexCount roofPoints = 12 := by
    simp [vertexCount, roofPoints_length]
  refine ⟨⟨housePoints_length, hh⟩, ⟨roofPoints_length, hr⟩, ?_, ?_, ?_, ?_, ?_⟩
  · intro r hmem
    rw [hlog] at hmem
    simp only [List.mem_cons, List.mem_singleton, List.not_mem_nil, or_false] at hmem
    rcases hmem with rfl | rfl | rfl
    · simp [bufferOf, hr]
    · simp [bufferOf, hne2, hh]
    · simp [bufferOf, hne2, hh]
  · rw [hlog]
    simp [List.filter_cons, hne]
  · rw [hlog, hh]
    simp [verticesDrawn, List.filter_cons, hne, segmentVertices]
    decide
  · rw [hlog]
    simp [List.filter_cons, hne2]
  · rw [hlog, hr]
    simp [verticesDrawn, List.filter_cons, hne2, segmentVertices]
    decide

/-- The strip segments at `sampleGlobals`, from a context with nothing bound. -/
theorem strip_segments_within_buffers_witness :
    sampleGlobals.roofVertices ≠ sampleGlobals.houseVertices ∧
    (housePoints.length = 144 ∧ vertexCount housePoints = 18) ∧
    (roofPoints.length = 96 ∧ vertexCount roofPoints = 12) ∧
    (∀ r ∈ drawLog (frameStart 0 0 []) (display sampleGlobals),
      r.first + r.count ≤ vertexCount (bufferOf sampleGlobals r.vertexArray)) ∧
    ((drawLog (frameStart 0 0 []) (display sampleGlobals)).filter
        (fun r => r.vertexArray = sampleGlobals.houseVertices)).map
        (fun r => (r.first, r.count))
      = [(0, 10), (10, 8)] ∧
    verticesDrawn sampleGlobals.houseVertices
        (drawLog (frameStart 0 0 []) (display sampleGlobals))
      = List.range (vertexCount housePoints) ∧
    ((drawLog (frameStart 0 0 []) (display sampleGlobals)).filter
        (fun r => r.vertexArray = sampleGlobals.roofVertices)).map
        (fun r => (r.first, r.count))
      = [(0, 12)] ∧
    verticesDrawn sampleGlobals.roofVertices
        (drawLog (frameStart 0 0 []) (display sampleGlobals))
      = List.range (vertexCount roofPoints) :=
  ⟨by decide, strip_segments_within_buffers sampleGlobals 0 0 [] (by decide)⟩

/-! ## The animation clock -/

/-- For a time that is not negative, the truncation is the floor. -/
theorem toInt_of_nonneg (x : ℚ) (h0 : 0 ≤ x) (hlt : x < 2 ^ 31) :
    toInt x = some ⌊x⌋ := by
  have hnum : 0 ≤ x.num := Rat.num_nonneg.mpr h0
  have hden : (0 : ℤ) ≤ (x.den : ℤ) := Int.ofNat_nonneg _
  have hfloor : Int.tdiv x.num x.den = ⌊x⌋ := by
    rw [Int.tdiv_eq_ediv hnum hden, Rat.floor_def]
  have hlo : (0 : ℤ) ≤ ⌊x⌋ := Int.floor_nonneg.mpr h0
  have hhi : ⌊x⌋ < (2 : ℤ) ^ 31 := by
    apply Int.floor_lt.mpr
    exact_mod_cast hlt
  unfold toInt
  simp only [hfloor]
  rw [if_pos]
  constructor
  · have : (-2 : ℤ) ^ 31 ≤ 0 := by norm_num
    omega
  · exact hhi

/-- An integer nearer than one half is the rounded value. -/
theorem roundEven_eq_of_near (q : ℚ) (n : ℤ) (h : |q - n| < 1 / 2) : roundEven q = n := by
  rw [abs_lt] at h
  obtain ⟨h1, h2⟩ := h
  have hfl : (⌊q⌋ : ℚ) ≤ q := Int.floor_le q
  have hfu : q < ⌊q⌋ + 1 := Int.lt_floor_add_one q
  have hcases : ⌊q⌋ = n ∨ ⌊q⌋ = n - 1 := by
    have a1 : (⌊q⌋ : ℚ) < n + 1 := by linarith
    have a2 : (n : ℚ) - 2 < ⌊q⌋ := by linarith
    have b1 : ⌊q⌋ < n + 1 := by exact_mod_cast a1
    have b2 : n - 2 < ⌊q⌋ := by exact_mod_cast a2
    omega
  unfold roundEven
  rcases hcases with hc | hc
  · rw [hc]
    rw [if_pos (by linarith)]
  · rw [hc]
    have hgt : (1 : ℚ) / 2 < q - ((n - 1 : ℤ) : ℚ) := by push_cast; linarith
    rw [if_neg (by linarith), if_pos hgt]
    ring

/-- Rounding moves a number by one half at most. -/
theorem roundEven_bounds (q : ℚ) :
    q - 1 / 2 ≤ (roundEven q : ℚ) ∧ (roundEven q : ℚ) ≤ q + 1 / 2 := by
  have hfl : (⌊q⌋ : ℚ) ≤ q := Int.floor_le q
  have hfu : q < ⌊q⌋ + 1 := Int.lt_floor_add_one q
  unfold roundEven
  split_ifs with h1 h2 h3
  · constructor <;> linarith
  · push_cast; constructor <;> linarith
  · constructor <;> linarith
  · push_cast; constructor <;> linarith

theorem roundEven_nonneg (q : ℚ) (h : 0 ≤ q) : 0 ≤ roundEven q := by
  have hf : 0 ≤ ⌊q⌋ := Int.floor_nonneg.mpr h
  unfold roundEven
  split_ifs <;> omega

/-- The last place of a number between two consecutive powers of two. -/
theorem ulpExp_eq (x : ℚ) (e : ℤ) (hlo : (2 : ℚ) ^ (e + 23) ≤ |x|)
    (hhi : |x| < (2 : ℚ) ^ (e + 24)) (he : -149 ≤ e) : ulpExp x = e := by
  have hpos : 0 < |x| := lt_of_lt_of_le (by positivity) hlo
  have h1 : e + 23 ≤ Int.log 2 |x| :=
    (Int.zpow_le_iff_le_log (by norm_num) hpos).mp (by exact_mod_cast hlo)
  have h2 : Int.log 2 |x| < e + 24 :=
    (Int.lt_zpow_iff_log_lt (by norm_num) hpos).mp (by exact_mod_cast hhi)
  unfold ulpExp
  have : Int.log 2 |x| - 23 = e := by omega
  rw [this]
  exact max_eq_left he

/-- Evaluation of `toFloat`: the binade of `x` and the nearest integer multiple
of its last place decide the result. -/
theorem toFloat_eq (x : ℚ) (e n : ℤ) (hlo : (2 : ℚ) ^ (e + 23) ≤ |x|)
    (hhi : |x| < (2 : ℚ) ^ (e + 24)) (he : -149 ≤ e)
    (hn : |x / 2 ^ e - n| < 1 / 2) (hfin : |(n : ℚ) * 2 ^ e| < 2 ^ 128) :
    toFloat x = some ((n : ℚ) * 2 ^ e) := by
  unfold toFloat
  simp only [ulpExp_eq x e hlo hhi he, roundEven_eq_of_near _ n hn]
  rw [if_pos hfin]

theorem toFloat_zero : toFloat 0 = some 0 := by
  simp [toFloat, roundEven]

theorem toFloat_nonneg (x y : ℚ) (h0 : 0 ≤ x) (h : toFloat x = some y) : 0 ≤ y := by
  unfold toFloat at h
  simp only at h
  split at h
  · have hy := Option.some.inj h
    rw [← hy]
    apply mul_nonneg
    · exact_mod_cast roundEven_nonneg _ (div_nonneg h0 (by positivity))
    · positivity
  · exact absurd h (by simp)

/-- Below 8 the last place is at most `2^-21`, so rounding adds at most `2^-22`. -/
theorem toFloat_small (x : ℚ) (h0 : 0 ≤ x) (h8 : x < 8) :
    ∃ y, toFloat x = some y ∧ 0 ≤ y ∧ y ≤ x + 2 ^ (-22 : ℤ) := by
  have hlog : Int.log 2 |x| < 3 := by
    rcases eq_or_lt_of_le h0 with hz | hpos
    · rw [← hz]
      simp
    · have habs : 0 < |x| := abs_pos.mpr (ne_of_gt hpos)
      apply (Int.lt_zpow_iff_log_lt (by norm_num) habs).mp
      rw [abs_of_pos hpos]
      norm_num
      linarith
  have he : ulpExp x ≤ -21 := by
    unfold ulpExp
    apply max_le <;> omega
  have hpow : (2 : ℚ) ^ ulpExp x ≤ 2 ^ (-21 : ℤ) := zpow_le_zpow_right₀ (by norm_num) he
  have hpos : (0 : ℚ) < 2 ^ ulpExp x := by positivity
  have hq0 : 0 ≤ x / 2 ^ ulpExp x := div_nonneg h0 hpos.le
  have hr0 : (0 : ℚ) ≤ roundEven (x / 2 ^ ulpExp x) := by
    exact_mod_cast roundEven_nonneg _ hq0
  have hr1 := (roundEven_bounds (x / 2 ^ ulpExp x)).2
  have hy0 : 0 ≤ (roundEven (x / 2 ^ ulpExp x) : ℚ) * 2 ^ ulpExp x := mul_nonneg hr0 hpos.le
  have hy1 : (roundEven (x / 2 ^ ulpExp x) : ℚ) * 2 ^ ulpExp x ≤ x + 2 ^ (-22 : ℤ) := by
    have h1 : (roundEven (x / 2 ^ ulpExp x) : ℚ) * 2 ^ ulpExp x
        ≤ (x / 2 ^ ulpExp x + 1 / 2) * 2 ^ ulpExp x :=
      mul_le_mul_of_nonneg_right hr1 hpos.le
    have h2 : (x / 2 ^ ulpExp x + 1 / 2) * 2 ^ ulpExp x = x + 2 ^ ulpExp x / 2 := by
      field_simp
      ring
    have h3 : (2 : ℚ) ^ (-21 : ℤ) / 2 = 2 ^ (-22 : ℤ) := by norm_num
    have h4 : (2 : ℚ) ^ ulpExp x / 2 ≤ 2 ^ (-22 : ℤ) := by
      rw [← h3]
      exact div_le_div_of_nonneg_right hpow (by norm_num)
    rw [h2] at h1
    exact le_trans h1 (add_le_add_left h4 x)
  refine ⟨_, ?_, hy0, hy1⟩
  unfold toFloat
  simp only
  rw [if_pos]
  rw [abs_of_nonneg hy0]
  have h4 : (2 : ℚ) ^ (-22 : ℤ) < 1 := by norm_num
  have h5 : (9 : ℚ) < 2 ^ 128 := by norm_num
  linarith

/-- The four steps of `currentAngle`, one hypothesis for each. -/
theorem currentAngle_eval (t time p a : ℚ) (n : ℤ) (h1 : toFloat t = some time)
    (h2 : toFloat (time * 1000) = some p) (h3 : toInt p = some n)
    (h4 : toFloat (((Int.tmod n 6283 : ℤ) : ℚ) / 1000) = some a) :
    currentAngle t = some a := by
  simp [currentAngle, h1, h2, h3, h4]

theorem toFloat_one : toFloat 1 = some 1 := by
  rw [toFloat_eq 1 (-23) (2 ^ 23) (by norm_num) (by norm_num) (by norm_num)
    (by norm_num) (by norm_num)]
  norm_num

theorem currentAngle_at_zero : currentAngle 0 = some 0 := by
  apply currentAngle_eval 0 0 0 0 0 toFloat_zero
  · simpa using toFloat_zero
  · rw [toInt_of_nonneg 0 (le_refl _) (by norm_num)]
    simp
  · simpa using toFloat_zero

theorem currentAngle_at_one : currentAngle 1 = some 1 := by
  apply currentAngle_eval 1 1 1000 1 1000 toFloat_one
  · rw [toFloat_eq (1 * 1000) (-14) 16384000 (by norm_num) (by norm_num) (by norm_num)
      (by norm_num) (by norm_num)]
    norm_num
  · rw [toInt_of_nonneg 1000 (by norm_num) (by norm_num)]
    simp
  · have h : ((Int.tmod 1000 6283 : ℤ) : ℚ) / 1000 = 1 := by norm_num [Int.tmod]
    rw [h]
    exact toFloat_one

/-- At 6.283 the clock reading rounds to `13176406/2^21`, a little below, and
the `float` product rounds up to `6283`. -/
theorem currentAngle_at_wrap : currentAngle (6283 / 1000) = some 0 := by
  apply currentAngle_eval (6283 / 1000) (13176406 / 2 ^ 21) 6283 0 6283
  · rw [toFloat_eq (6283 / 1000) (-21) 13176406 (by norm_num [abs_of_pos])
      (by norm_num [abs_of_pos]) (by norm_num) (by norm_num [abs_lt]) (by norm_num [abs_lt])]
    norm_num
  · rw [toFloat_eq (13176406 / 2 ^ 21 * 1000) (-11) 12867584 (by norm_num [abs_of_pos])
      (by norm_num [abs_of_pos]) (by norm_num) (by norm_num [abs_lt]) (by norm_num [abs_lt])]
    norm_num
  · rw [toInt_of_nonneg 6283 (by norm_num) (by norm_num)]
    simp
  · have h : ((Int.tmod 6283 6283 : ℤ) : ℚ) / 1000 = 0 := by norm_num [Int.tmod]
    rw [h]
    exact toFloat_zero

/-- At `0.005f`, which is `5368709/2^30`, the `float` product rounds up to `5`. -/
theorem currentAngle_at_5ms :
    toFloat (5368709 / 2 ^ 30 * 1000) = some 5 ∧
    currentAngle (5368709 / 2 ^ 30) = some (5368709 / 2 ^ 30) := by
  have hp : toFloat (5368709 / 2 ^ 30 * 1000) = some 5 := by
    rw [toFloat_eq (5368709 / 2 ^ 30 * 1000) (-21) 10485760 (by norm_num [abs_of_pos])
      (by norm_num [abs_of_pos]) (by norm_num) (by norm_num [abs_lt]) (by norm_num [abs_lt])]
    norm_num
  refine ⟨hp, ?_⟩
  apply currentAngle_eval (5368709 / 2 ^ 30) (5368709 / 2 ^ 30) 5 _ 5
  · rw [toFloat_eq (5368709 / 2 ^ 30) (-31) 10737418 (by norm_num [abs_of_pos])
      (by norm_num [abs_of_pos]) (by norm_num) (by norm_num [abs_lt]) (by norm_num [abs_lt])]
    norm_num
  · exact hp
  · rw [toInt_of_nonneg 5 (by norm_num) (by norm_num)]
    simp
  · have h : ((Int.tmod 5 6283 : ℤ) : ℚ) / 1000 = 5 / 1000 := by norm_num [Int.tmod]
    rw [h, toFloat_eq (5 / 1000) (-31) 10737418 (by norm_num [abs_of_pos])
      (by norm_num [abs_of_pos]) (by norm_num) (by norm_num [abs_lt]) (by norm_num [abs_lt])]
    norm_num

/-- The formula on the exact product fails on the code. The time `0.005f`, the
`float` `5368709/2^30`, is not negative and its exact product with 1000 is
below `2^31`; the code yields `0.005f` (the `float` product is `5`), while
`(floor(t*1000) mod 6283)/1000` is `4/1000`. -/
theorem currentAngle_exact_formula_fails :
    ((0 : ℚ) ≤ 5368709 / 2 ^ 30 ∧ (5368709 / 2 ^ 30 : ℚ) * 1000 < 2 ^ 31) ∧
    currentAngle (5368709 / 2 ^ 30) = some (5368709 / 2 ^ 30) ∧
    ((⌊(5368709 / 2 ^ 30 : ℚ) * 1000⌋ % 6283 : ℤ) : ℚ) / 1000 = 4 / 1000 ∧
    currentAngle (5368709 / 2 ^ 30)
      ≠ some (((⌊(5368709 / 2 ^ 30 : ℚ) * 1000⌋ % 6283 : ℤ) : ℚ) / 1000) := by
  have hfloor : ⌊(5368709 / 2 ^ 30 : ℚ) * 1000⌋ = 4 := by
    rw [Int.floor_eq_iff]
    constructor <;> norm_num
  refine ⟨⟨by norm_num, by norm_num⟩, currentAngle_at_5ms.2, ?_, ?_⟩
  · rw [hfloor]
    norm_num
  · rw [currentAngle_at_5ms.2, hfloor]
    norm_num

/-- Claim C10, as amended: for a clock reading `t >= 0`, with `time` the `float`
it converts to and `p` the `float` product `time*1000`, if `p` is below `2^31`
then `currentAngle` is `(floor(p) mod 6283)/1000` rounded to `float`, a value in
`[0, 2π)`; it is `0` at `t = 0`, `1` at `t = 1` and `0` at `t = 6.283`. -/
theorem currentAngle_float_formula (t time p : ℚ) (h0 : 0 ≤ t)
    (htime : toFloat t = some time) (hp : toFloat (time * 1000) = some p)
    (hlt : p < 2 ^ 31) :
    (∃ a : ℚ, currentAngle t = some a ∧
      toFloat (((⌊p⌋ % 6283 : ℤ) : ℚ) / 1000) = some a ∧
      0 ≤ (a : ℝ) ∧ (a : ℝ) < 2 * Real.pi) ∧
    currentAngle 0 = some 0 ∧
    currentAngle 1 = some 1 ∧
    currentAngle (6283 / 1000) = some 0 := by
  have htime0 : 0 ≤ time := toFloat_nonneg t time h0 htime
  have hp0 : 0 ≤ p := toFloat_nonneg _ p (mul_nonneg htime0 (by norm_num)) hp
  have hint := toInt_of_nonneg p hp0 hlt
  have hmod : Int.tmod ⌊p⌋ 6283 = ⌊p⌋ % 6283 :=
    Int.tmod_eq_emod (Int.floor_nonneg.mpr hp0) (by norm_num)
  have hm0 : (0 : ℤ) ≤ ⌊p⌋ % 6283 := Int.emod_nonneg _ (by norm_num)
  have hm1 : ⌊p⌋ % 6283 < 6283 := Int.emod_lt_of_pos _ (by norm_num)
  have hq0 : (0 : ℚ) ≤ ((⌊p⌋ % 6283 : ℤ) : ℚ) / 1000 := by
    apply div_nonneg
    · exact_mod_cast hm0
    · norm_num
  have hq1 : ((⌊p⌋ % 6283 : ℤ) : ℚ) / 1000 ≤ 6282 / 1000 := by
    apply div_le_div_of_nonneg_right _ (by norm_num)
    have : ⌊p⌋ % 6283 ≤ 6282 := by omega
    exact_mod_cast this
  obtain ⟨a, ha, ha0, ha1⟩ := toFloat_small _ hq0 (by linarith)
  refine ⟨⟨a, ?_, ha, ?_, ?_⟩, currentAngle_at_zero, currentAngle_at_one,
    currentAngle_at_wrap⟩
  · exact currentAngle_eval t time p a ⌊p⌋ htime hp hint (by rw [hmod]; exact ha)
  · exact_mod_cast ha0
  · have hsmall : (2 : ℚ) ^ (-22 : ℤ) < 1 / 1000 := by norm_num
    have hq : a < 6283 / 1000 := by linarith
    have hr : (a : ℝ) < 6283 / 1000 := by
      have hc : ((a : ℚ) : ℝ) < ((6283 / 1000 : ℚ) : ℝ) := Rat.cast_lt.mpr hq
      push_cast at hc
      exact hc
    have hpi := Real.pi_gt_d6
    linarith

/-- The angle at the time `0.005f`, where the `float` product is `5`. -/
theorem currentAngle_float_formula_witness :
    ((0 : ℚ) ≤ 5368709 / 2 ^ 30 ∧
      toFloat (5368709 / 2 ^ 30) = some (5368709 / 2 ^ 30) ∧
      toFloat (5368709 / 2 ^ 30 * 1000) = some 5 ∧ (5 : ℚ) < 2 ^ 31) ∧
    (∃ a : ℚ, currentAngle (5368709 / 2 ^ 30) = some a ∧
      toFloat (((⌊(5 : ℚ)⌋ % 6283 : ℤ) : ℚ) / 1000) = some a ∧
      0 ≤ (a : ℝ) ∧ (a : ℝ) < 2 * Real.pi) ∧
    currentAngle 0 = some 0 ∧
    currentAngle 1 = some 1 ∧
    currentAngle (6283 / 1000) = some 0 :=
  have h1 : toFloat (5368709 / 2 ^ 30) = some (5368709 / 2 ^ 30) := by
    rw [toFloat_eq (5368709 / 2 ^ 30) (-31) 10737418 (by norm_num [abs_of_pos])
      (by norm_num [abs_of_pos]) (by norm_num) (by norm_num [abs_lt]) (by norm_num [abs_lt])]
    norm_num
  ⟨⟨by norm_num, h1, currentAngle_at_5ms.1, by norm_num⟩,
    currentAngle_float_formula _ _ _ (by norm_num) h1 currentAngle_at_5ms.1 (by norm_num)⟩

/-! ## Outputs are overwritten in full -/

/-- Claim C11: for any two prior contents `R` and `S` of the output matrix,
`identity`, `scale`, `translate`, `rotateX`, `rotateY`, `rotateZ`,
`perspectivea` and `mat4Mult` (output not aliasing an input) return the same
matrix, so all 16 entries are written and nothing of the prior content is left;
hence `rotateX(a, W)` followed by `rotateY(b, W)` leaves `W` equal to
`rotateY(b)` alone, and the view matrix that `main` builds is
`mat4Mult(translate(0, -2, -7), rotateY(d2r(-45)))`, the X rotation gone: its
rows are those of `rotateY(d2r(-45))` with the last column `(0, -2, -7, 1)`. -/
theorem outputs_fully_overwritten (R S W T V : mat4 ℝ) (x y z a b : ℝ)
    (fovy aspect near far : ℝ) (A B : mat4 ℝ) :
    identity R = identity S ∧
    scale x y z R = scale x y z S ∧
    translate x y z R = translate x y z S ∧
    rotateX Real.cos Real.sin a R = rotateX Real.cos Real.sin a S ∧
    rotateY Real.cos Real.sin a R = rotateY Real.cos Real.sin a S ∧
    rotateZ Real.cos Real.sin a R = rotateZ Real.cos Real.sin a S ∧
    perspectivea Real.tan fovy aspect near far R
      = perspectivea Real.tan fovy aspect near far S ∧
    mat4Mult A B R = mat4Mult A B S ∧
    rotateY Real.cos Real.sin b (rotateX Real.cos Real.sin a W)
      = rotateY Real.cos Real.sin b S ∧
    viewTransformAtStartup Real.cos Real.sin W T V
      = mat4Mult (translate 0 (-2) (-7) R) (rotateY Real.cos Real.sin (d2r (-45)) S) R ∧
    viewTransformAtStartup Real.cos Real.sin W T V
      = quad (quad (Real.cos (d2r (-45))) 0 (-Real.sin (d2r (-45))) 0)
          (quad 0 1 0 (-2))
          (quad (Real.sin (d2r (-45))) 0 (Real.cos (d2r (-45))) (-7))
          (quad 0 0 0 1) := by
  refine ⟨?_, ?_, ?_, ?_, ?_, ?_, ?_, ?_, ?_, ?_, ?_⟩
  · funext i j
    simp only [identity_apply]
  · simp only [scale_apply]
  · simp only [translate_apply]
  · simp only [rotateX_apply]
  · simp only [rotateY_apply]
  · simp only [rotateZ_apply]
  · simp only [perspectivea_apply]
  · funext i j
    simp only [mat4Mult_apply]
  · simp only [rotateY_apply]
  · funext i j
    simp only [viewTransformAtStartup, mat4Mult_apply, translate_apply, rotateY_apply]
  · funext i j
    simp only [viewTransformAtStartup, mat4Mult_apply, translate_apply, rotateY_apply]
    fin_cases i <;> fin_cases j <;> simp [quad]

end HouseScene
